import Mathlib

/-!
Verification of the run-trace utilities of the dynesty repository
(src/py/dynesty/results.py): the Results container (schema validation,
immutability, iteration, field substitution), the progress-snapshot
sanitizer of get_print_fn_args, and the summary renderer.

Python floats are modelled by an inductive carrier with a rational
finite part and the three special values +inf, -inf and nan, with IEEE
comparison semantics (every comparison against nan is false).  Negative
zero is not distinguished from zero; none of the verified properties
depends on it.
-/

/-- Models a Python / numpy floating-point value: a finite rational, one of
the two infinities, or nan. -/
inductive PFloat where
  | finite (q : ℚ)
  | pinf
  | ninf
  | nan
deriving DecidableEq, Repr

/-- Models the strict less-than comparison on Python floats: any comparison
involving nan is false, the infinities compare in the usual way. -/
def pltB : PFloat → PFloat → Bool
  | .nan, _ => false
  | _, .nan => false
  | .finite a, .finite b => decide (a < b)
  | .finite _, .pinf => true
  | .finite _, .ninf => false
  | .pinf, _ => false
  | .ninf, .ninf => false
  | .ninf, _ => true

/-- Models the non-strict comparison on Python floats: any comparison
involving nan is false. -/
def pleB : PFloat → PFloat → Bool
  | .nan, _ => false
  | _, .nan => false
  | .finite a, .finite b => decide (a ≤ b)
  | .finite _, .pinf => true
  | .finite _, .ninf => false
  | .pinf, .pinf => true
  | .pinf, _ => false
  | .ninf, _ => true

/-- Models numpy.sqrt on the PFloat carrier.  An exact real square root of a
rational is in general irrational, so the finite non-negative branch uses the
integer-rounded Rat.sqrt as its stand-in; every verified property depends
only on which branch of the surrounding code is taken, never on the numeric
value returned here.  Negative inputs give nan, as numpy does. -/
def psqrt : PFloat → PFloat
  | .finite q => if 0 ≤ q then .finite (Rat.sqrt q) else .nan
  | .pinf => .pinf
  | .ninf => .nan
  | .nan => .nan

/-- The four sanitized scalars produced by the adjusting block of
get_print_fn_args (results.py lines 121-131). -/
structure Sanitized where
  loglstar : PFloat
  logz : PFloat
  logzerr : PFloat
  delta_logz : PFloat
deriving DecidableEq, Repr

/-- Embeds the value-adjusting block of get_print_fn_args
(results.py lines 121-131):
  if delta_logz > 1e6: delta_logz = inf
  if logzvar >= 0 and logzvar <= 1e6: logzerr = sqrt(logzvar) else logzerr = nan
  if logz <= -1e6: logz = -inf
  if loglstar <= -1e6: loglstar = -inf -/
def sanitizeSnapshot (loglstar logz logzvar delta_logz : PFloat) : Sanitized :=
  let delta_logz_a := if pltB (.finite 1000000) delta_logz then PFloat.pinf else delta_logz
  let logzerr := if pleB (.finite 0) logzvar && pleB logzvar (.finite 1000000)
                 then psqrt logzvar else PFloat.nan
  let logz_a := if pleB logz (.finite (-1000000)) then PFloat.ninf else logz
  let loglstar_a := if pleB loglstar (.finite (-1000000)) then PFloat.ninf else loglstar
  ⟨loglstar_a, logz_a, logzerr, delta_logz_a⟩

/-!
The Results container.  A Python value stored in a trace field is an
integer, a float, a string, or an array of values; arrays model both Python
lists and one-dimensional numpy arrays.
-/

/-- Models a Python value held in a Results field. -/
inductive PyVal where
  | int (i : ℤ)
  | float (x : PFloat)
  | str (s : String)
  | arr (l : List PyVal)

/-- Models lookup in the attribute dictionary of a Python object: the value
bound to the key, or none when the attribute is absent. -/
def dictGet : List (String × PyVal) → String → Option PyVal
  | [], _ => none
  | (k0, v) :: rest, k => if k0 = k then some v else dictGet rest k

/-- Models binding an attribute on a Python object: an existing binding is
overwritten in place, a new key is appended, preserving insertion order. -/
def dictSet : List (String × PyVal) → String → PyVal → List (String × PyVal)
  | [], k, v => [(k, v)]
  | (k0, v0) :: rest, k, v =>
    if k0 = k then (k, v) :: rest else (k0, v0) :: dictSet rest k v

/-- The attribute dictionary produced by the construction loop of
Results.init, which binds each (key, value) pair in order. -/
def buildDict (kv : List (String × PyVal)) : List (String × PyVal) :=
  kv.foldl (fun d p => dictSet d p.1 p.2) []

/-- The value the last pair of the list carrying the given key binds, if any;
this is what sequentially applied dictSet leaves at that key. -/
def lastGet : List (String × PyVal) → String → Option PyVal
  | [], _ => none
  | p :: rest, k =>
    match lastGet rest k with
    | some v => some v
    | none => if p.1 = k then some p.2 else none

/-- Errors raised by the Results container.  missingField and
missingLiveInfo are the two ValueError cases of Results.init, cannotSetAttr
is the RuntimeError of the setattr interceptor, and indexError is the
IndexError that evaluating name[0] raises on an empty attribute name. -/
inductive ResErr where
  | missingField (k : String)
  | missingLiveInfo
  | cannotSetAttr
  | indexError
deriving DecidableEq, Repr

/-- Models a constructed Results object: keys records self underscore keys
(the field names in insertion order, duplicates kept), attrs the public
attribute dictionary, dynamic and initialized the two internal flags. -/
structure Results where
  keys : List String
  attrs : List (String × PyVal)
  dynamic : Bool
  initialized : Bool

/-- The required field names of Results.init, in the order checked. -/
def requiredKeys : List String :=
  ["samples_u", "samples_id", "logl", "logwt", "logz", "logzerr", "samples"]

/-- A key acceptable as a public field name of a trace: nonempty, not
beginning with an underscore (so the construction-time setattr admits it and
it cannot shadow the underscore-prefixed internals), and distinct from the
three method names of the class, which an instance attribute would shadow.
The embedding of construction is faithful on mappings whose keys satisfy
this predicate. -/
def okKey (s : String) : Bool :=
  match s.data with
  | [] => false
  | c :: _ => c != '_' && !(["items", "isdynamic", "summary"].contains s)

/-- Embeds Results.init (results.py lines 231-252).  The construction loop
records every key in order and binds it as an attribute; then the seven
required keys are checked in order and the first absent one is reported in a
ValueError; then the live-point information is resolved, with nlive checked
before samples_n so the static interpretation is preferred; only then is the
object marked initialized.  A failure is an error value: no finalized object
is produced. -/
def mkResults (kv : List (String × PyVal)) : Except ResErr Results :=
  match requiredKeys.find? (fun k => decide (k ∉ kv.map Prod.fst)) with
  | some k => Except.error (ResErr.missingField k)
  | none =>
    if "nlive" ∈ kv.map Prod.fst then
      Except.ok ⟨kv.map Prod.fst, buildDict kv, false, true⟩
    else if "samples_n" ∈ kv.map Prod.fst then
      Except.ok ⟨kv.map Prod.fst, buildDict kv, true, true⟩
    else
      Except.error ResErr.missingLiveInfo

/-- Embeds Results.setattr (results.py lines 254-257): assignment to a name
whose first character is not an underscore fails on an initialized object
with a RuntimeError, leaving the object untouched (the error carries no new
object); an empty name fails evaluating name[0].  Permitted assignments
rebind the attribute. -/
def Results.setattr (r : Results) (name : String) (v : PyVal) :
    Except ResErr Results :=
  match name.data with
  | [] => Except.error ResErr.indexError
  | c :: _ =>
    if c != '_' && r.initialized then Except.error ResErr.cannotSetAttr
    else Except.ok ⟨r.keys, dictSet r.attrs name v, r.dynamic, r.initialized⟩

/-- Embeds Results.isdynamic (results.py lines 273-274). -/
def Results.isdynamic (r : Results) : Bool :=
  r.dynamic

/-- Embeds Results.items (results.py lines 270-271): the (key, value) pairs
for the recorded keys in insertion order.  On every object built by
mkResults each recorded key has a binding, so the default of getD is
unreachable; it stands in for the AttributeError a stray getattr would
raise. -/
def Results.items (r : Results) : List (String × PyVal) :=
  r.keys.map (fun k => (k, (dictGet r.attrs k).getD (PyVal.int 0)))

/-- The per-pair step of results_substitute: a pair whose key the
substitution dictionary binds is replaced by the bound value, any other pair
is kept. -/
def subFn (m : List (String × PyVal)) (p : String × PyVal) :
    String × PyVal :=
  match dictGet m p.1 with
  | none => p
  | some w => (p.1, w)

/-- Embeds results_substitute (results.py lines 301-308): rebuild the trace
from its items, replacing the value of every key bound in the substitution
dictionary. -/
def results_substitute (r : Results) (m : List (String × PyVal)) :
    Except ResErr Results :=
  mkResults (r.items.map (subFn m))

/-- A mapping with the seven required fields and both live-point fields. -/
def kvBoth : List (String × PyVal) :=
  [("samples_u", PyVal.int 0), ("samples_id", PyVal.int 0),
   ("logl", PyVal.int 0), ("logwt", PyVal.int 0), ("logz", PyVal.int 0),
   ("logzerr", PyVal.int 0), ("samples", PyVal.int 0),
   ("nlive", PyVal.int 10), ("samples_n", PyVal.int 0)]

/-- A mapping for a small static trace, and the object its construction
yields (the keys in order, the attribute dictionary, static, initialized). -/
def kvStat0 : List (String × PyVal) :=
  [("samples_u", PyVal.arr []), ("samples_id", PyVal.arr []),
   ("logl", PyVal.arr []), ("logwt", PyVal.arr []), ("logz", PyVal.arr []),
   ("logzerr", PyVal.arr []), ("samples", PyVal.arr []),
   ("nlive", PyVal.int 5)]

/-- The trace mkResults kvStat0 produces. -/
def rStat0 : Results :=
  ⟨["samples_u", "samples_id", "logl", "logwt", "logz", "logzerr",
    "samples", "nlive"], kvStat0, false, true⟩

/-!
Claim C8 concerns the monotonicity of the logl sequence.  Results.init
performs no check on the values it stores, so construction accepts a
strictly decreasing logl sequence; the invariant holds exactly when the
supplied sequence already satisfies it.
-/

/-- A list of float values that is non-decreasing under the Python
comparison; any non-float entry makes the check fail. -/
def nonDecFloats : List PyVal → Bool
  | [] => true
  | [_] => true
  | a :: b :: t =>
    (match a, b with
     | .float x, .float y => pleB x y
     | _, _ => false) && nonDecFloats (b :: t)

/-- The logl field of a trace is a non-decreasing sequence of floats. -/
def loglNonDec (r : Results) : Bool :=
  match dictGet r.attrs "logl" with
  | some (.arr l) => nonDecFloats l
  | _ => false

/-- A full mapping whose logl sequence strictly decreases. -/
def kvDecLogl : List (String × PyVal) :=
  [("samples_u", PyVal.arr []), ("samples_id", PyVal.arr []),
   ("logl", PyVal.arr [PyVal.float (.finite 1), PyVal.float (.finite 0)]),
   ("logwt", PyVal.arr []), ("logz", PyVal.arr []),
   ("logzerr", PyVal.arr []), ("samples", PyVal.arr []),
   ("nlive", PyVal.int 5)]

/-!
The summary renderer.  Python str.format with a d conversion prints the
decimal integer; the 6.3f conversion rounds to three decimals and pads on
the left to width six.  Rounding of the exact rational stands in for the
rounding of the binary double; no verified property depends on the digits
produced for a non-representable value.
-/

/-- Left-pad a string with spaces to the given width. -/
def padLeft (w : ℕ) (s : String) : String :=
  if s.length < w then String.mk (List.replicate (w - s.length) ' ') ++ s
  else s

/-- Left-pad a string with zeros to the given width. -/
def padZeros (n : ℕ) (s : String) : String :=
  if s.length < n then String.mk (List.replicate (n - s.length) '0') ++ s
  else s

/-- Fixed-point float formatting: width w, p decimal places, matching the
Python format spec w.pf on the PFloat carrier (inf, -inf and nan print
their names).  The scaled value q times ten to the p is rounded half-up to
the integer m, written directly on the numerator and denominator as the
floor of (q times ten to the p) + 1/2. -/
def fmtFloat (w p : ℕ) (x : PFloat) : String :=
  padLeft w (match x with
    | .pinf => "inf"
    | .ninf => "-inf"
    | .nan => "nan"
    | .finite q =>
      let m : ℤ := Int.fdiv (2 * q.num * ((10 ^ p : ℕ) : ℤ) + (q.den : ℤ))
        (2 * (q.den : ℤ))
      let a : ℕ := m.natAbs
      (if m < 0 then "-" else "") ++ toString (a / 10 ^ p) ++
        (if p = 0 then "" else "." ++ padZeros p (toString (a % 10 ^ p))))

/-- A stored value read back as a Python int. -/
def asInt : PyVal → Option ℤ
  | .int i => some i
  | _ => none

/-- A stored value read back as a Python float. -/
def asFloat : PyVal → Option PFloat
  | .float x => some x
  | _ => none

/-- A stored value read back as a sequence of ints. -/
def asIntList : PyVal → Option (List ℤ)
  | .arr l => l.mapM asInt
  | _ => none

/-- A stored value read back as a sequence of floats. -/
def asFloatList : PyVal → Option (List PFloat)
  | .arr l => l.mapM asFloat
  | _ => none

/-- Embeds Results.summary (results.py lines 276-298), returning the string
the method prints.  For a dynamic trace the report lists niter, the sum of
the per-iteration call counts, the efficiency and the final evidence with
its error; a static trace prepends the nlive line.  A field of the wrong
shape, or an empty logz or logzerr (whose last element is taken), models
the corresponding Python TypeError or IndexError as none. -/
def Results.summary (r : Results) : Option String := do
  let niter ← (dictGet r.attrs "niter").bind asInt
  let ncl ← (dictGet r.attrs "ncall").bind asIntList
  let eff ← (dictGet r.attrs "eff").bind asFloat
  let lzl ← (dictGet r.attrs "logz").bind asFloatList
  let lzel ← (dictGet r.attrs "logzerr").bind asFloatList
  let lz ← lzl.getLast?
  let lze ← lzel.getLast?
  let core := "niter: " ++ toString niter ++
    "\nncall: " ++ toString (ncl.foldl (fun a b => a + b) 0) ++
    "\neff(%): " ++ fmtFloat 6 3 eff ++
    "\nlogz: " ++ fmtFloat 6 3 lz ++ " +/- " ++ fmtFloat 6 3 lze
  if r.dynamic then
    pure ("Summary\n=======\n" ++ core)
  else do
    let nlive ← (dictGet r.attrs "nlive").bind asInt
    pure ("Summary\n=======\nnlive: " ++ toString nlive ++ "\n" ++ core)

/-- The needle list is an initial segment of the haystack list. -/
def headMatch : List Char → List Char → Bool
  | [], _ => true
  | _ :: _, [] => false
  | a :: as, b :: bs => a == b && headMatch as bs

/-- The needle occurs contiguously somewhere in the haystack. -/
def occursIn (needle : List Char) : List Char → Bool
  | [] => headMatch needle []
  | c :: cs => headMatch needle (c :: cs) || occursIn needle cs

/-- The second string is a literal substring of the first. -/
def strContains (hay needle : String) : Bool :=
  occursIn needle.data hay.data

/-- A list of float values that strictly increases under the Python
comparison. -/
def strictIncrFloats : List PyVal → Bool
  | [] => true
  | [_] => true
  | a :: b :: t =>
    (match a, b with
     | .float x, .float y => pltB x y
     | _, _ => false) && strictIncrFloats (b :: t)

/-- Five hundred strictly increasing log-likelihood values. -/
def staticLogl : List PyVal :=
  (List.range 500).map (fun i => PyVal.float (.finite i))

/-- The mapping of the concrete static scenario of claim C7: nlive 100 and
500 iterations of strictly increasing logl. -/
def kvSummaryStatic : List (String × PyVal) :=
  [("samples_u", PyVal.arr []), ("samples_id", PyVal.arr []),
   ("logl", PyVal.arr staticLogl), ("logwt", PyVal.arr []),
   ("logz", PyVal.arr [PyVal.float (.finite 1)]),
   ("logzerr", PyVal.arr [PyVal.float (.finite 1)]),
   ("samples", PyVal.arr []), ("nlive", PyVal.int 100),
   ("niter", PyVal.int 500),
   ("ncall", PyVal.arr (List.replicate 500 (PyVal.int 2))),
   ("eff", PyVal.float (.finite 10))]

/-- A concrete dynamic trace whose per-iteration call counts are 3, 5, 7. -/
def kvSummaryDyn : List (String × PyVal) :=
  [("samples_u", PyVal.arr []), ("samples_id", PyVal.arr []),
   ("logl", PyVal.arr [PyVal.float (.finite 0), PyVal.float (.finite 1),
      PyVal.float (.finite 2)]),
   ("logwt", PyVal.arr []),
   ("logz", PyVal.arr [PyVal.float (.finite 1)]),
   ("logzerr", PyVal.arr [PyVal.float (.finite 1)]),
   ("samples", PyVal.arr []),
   ("samples_n", PyVal.arr [PyVal.int 50, PyVal.int 50, PyVal.int 50]),
   ("niter", PyVal.int 3),
   ("ncall", PyVal.arr [PyVal.int 3, PyVal.int 5, PyVal.int 7]),
   ("eff", PyVal.float (.finite 10))]

/-- The summary a mapping produces after construction. -/
def summaryOf (kv : List (String × PyVal)) : Option String :=
  match mkResults kv with
  | .ok r => r.summary
  | .error _ => none

/-!
The progress printer argument builder.  print_fn delegates to
print_fn_fallback or print_fn_tqdm, both of which first call
get_print_fn_args; a failure inside get_print_fn_args therefore fails
print_fn as well.
-/

/-- The per-iteration quantities get_print_fn_args reads off the results
snapshot object (results.py lines 112-119). -/
structure IterSnapshot where
  loglstar : PFloat
  logz : PFloat
  logzvar : PFloat
  delta_logz : PFloat
  bounditer : ℤ
  nc : ℤ
  eff : PFloat

/-- Embeds get_print_fn_args (results.py lines 103-160): sanitize the
snapshot, then build the long, mid and short label lists.  Formatting a
float value always succeeds (inf and nan print their names), but when dlogz
is absent the stop branch formats stop_val with the fixed-point conversion,
which raises a TypeError when stop_val is None: that failure is the none
result, and then no string list is produced. -/
def get_print_fn_args (res : IterSnapshot) (niter ncall : ℤ)
    (add_live_it : Option ℤ) (dlogz : Option PFloat)
    (stop_val : Option PFloat) (nbatch : Option ℤ)
    (logl_min logl_max : PFloat) :
    Option (ℤ × List String × List String × List String) :=
  let s := sanitizeSnapshot res.loglstar res.logz res.logzvar res.delta_logz
  let long0 : List String :=
    match add_live_it with
    | some a => ["+" ++ toString a]
    | none => []
  let short0 := long0
  let long1 := long0 ++ (match nbatch with
    | some b => ["batch: " ++ toString b]
    | none => [])
  let long2 := long1 ++ ["bound: " ++ toString res.bounditer,
    "nc: " ++ toString res.nc, "ncall: " ++ toString ncall,
    "eff(%): " ++ fmtFloat 6 3 res.eff]
  let short1 := short0 ++ ["eff(%): " ++ fmtFloat 6 3 res.eff]
  let long3 := long2 ++ ["loglstar: " ++ fmtFloat 6 3 logl_min ++ " < " ++
    fmtFloat 6 3 s.loglstar ++ " < " ++ fmtFloat 6 3 logl_max]
  let short2 := short1 ++ ["logl*: " ++ fmtFloat 6 1 logl_min ++ "<" ++
    fmtFloat 6 1 s.loglstar ++ "<" ++ fmtFloat 6 1 logl_max]
  let long4 := long3 ++ ["logz: " ++ fmtFloat 6 3 s.logz ++ " +/- " ++
    fmtFloat 6 3 s.logzerr]
  let short3 := short2 ++ ["logz: " ++ fmtFloat 6 1 s.logz ++ "+/-" ++
    fmtFloat 0 1 s.logzerr]
  let mid0 := short3
  match dlogz with
  | some d =>
    some (niter, short3,
      mid0 ++ ["dlogz: " ++ fmtFloat 6 1 s.delta_logz ++ ">" ++
        fmtFloat 6 1 d],
      long4 ++ ["dlogz: " ++ fmtFloat 6 3 s.delta_logz ++ " > " ++
        fmtFloat 6 3 d])
  | none =>
    match stop_val with
    | some sv =>
      some (niter, short3, mid0 ++ ["stop: " ++ fmtFloat 6 3 sv],
        long4 ++ ["stop: " ++ fmtFloat 6 3 sv])
    | none => none

/-- Claim C6: get_print_fn_args sanitizes its snapshot exactly as follows:
the reported standard error equals sqrt(logzvar) when 0 <= logzvar <= 1e6 and
is nan otherwise; delta_logz is replaced by +inf when it exceeds 1e6; logz and
loglstar are each replaced by -inf when at or below -1e6; in all other cases
the values pass through unchanged. -/
theorem C6_sanitize_exact (ls lz lzv dlz : PFloat) :
    (∀ q : ℚ, lzv = .finite q → 0 ≤ q → q ≤ 1000000 →
      (sanitizeSnapshot ls lz lzv dlz).logzerr = psqrt lzv) ∧
    (∀ q : ℚ, lzv = .finite q → (q < 0 ∨ 1000000 < q) →
      (sanitizeSnapshot ls lz lzv dlz).logzerr = .nan) ∧
    ((lzv = .nan ∨ lzv = .pinf ∨ lzv = .ninf) →
      (sanitizeSnapshot ls lz lzv dlz).logzerr = .nan) ∧
    (∀ q : ℚ, dlz = .finite q → 1000000 < q →
      (sanitizeSnapshot ls lz lzv dlz).delta_logz = .pinf) ∧
    (∀ q : ℚ, dlz = .finite q → q ≤ 1000000 →
      (sanitizeSnapshot ls lz lzv dlz).delta_logz = dlz) ∧
    (dlz = .pinf → (sanitizeSnapshot ls lz lzv dlz).delta_logz = .pinf) ∧
    ((dlz = .ninf ∨ dlz = .nan) →
      (sanitizeSnapshot ls lz lzv dlz).delta_logz = dlz) ∧
    (∀ q : ℚ, lz = .finite q → q ≤ -1000000 →
      (sanitizeSnapshot ls lz lzv dlz).logz = .ninf) ∧
    (∀ q : ℚ, lz = .finite q → -1000000 < q →
      (sanitizeSnapshot ls lz lzv dlz).logz = lz) ∧
    (lz = .ninf → (sanitizeSnapshot ls lz lzv dlz).logz = .ninf) ∧
    ((lz = .pinf ∨ lz = .nan) → (sanitizeSnapshot ls lz lzv dlz).logz = lz) ∧
    (∀ q : ℚ, ls = .finite q → q ≤ -1000000 →
      (sanitizeSnapshot ls lz lzv dlz).loglstar = .ninf) ∧
    (∀ q : ℚ, ls = .finite q → -1000000 < q →
      (sanitizeSnapshot ls lz lzv dlz).loglstar = ls) ∧
    (ls = .ninf → (sanitizeSnapshot ls lz lzv dlz).loglstar = .ninf) ∧
    ((ls = .pinf ∨ ls = .nan) → (sanitizeSnapshot ls lz lzv dlz).loglstar = ls) := by
  refine ⟨?_, ?_, ?_, ?_, ?_, ?_, ?_, ?_, ?_, ?_, ?_, ?_, ?_, ?_, ?_⟩
  · rintro q rfl h0 h1
    simp [sanitizeSnapshot, pleB, h0, h1]
  · rintro q rfl h
    rcases h with h | h
    · simp [sanitizeSnapshot, pleB, not_le.mpr h]
    · simp [sanitizeSnapshot, pleB, not_le.mpr h]
  · rintro (rfl | rfl | rfl) <;> simp [sanitizeSnapshot, pleB]
  · rintro q rfl h
    simp [sanitizeSnapshot, pltB, h]
  · rintro q rfl h
    simp [sanitizeSnapshot, pltB, not_lt.mpr h]
  · rintro rfl
    simp [sanitizeSnapshot, pltB]
  · rintro (rfl | rfl) <;> simp [sanitizeSnapshot, pltB]
  · rintro q rfl h
    simp [sanitizeSnapshot, pleB, h]
  · rintro q rfl h
    simp [sanitizeSnapshot, pleB, not_le.mpr h]
  · rintro rfl
    simp [sanitizeSnapshot, pleB]
  · rintro (rfl | rfl) <;> simp [sanitizeSnapshot, pleB]
  · rintro q rfl h
    simp [sanitizeSnapshot, pleB, h]
  · rintro q rfl h
    simp [sanitizeSnapshot, pleB, not_le.mpr h]
  · rintro rfl
    simp [sanitizeSnapshot, pleB]
  · rintro (rfl | rfl) <;> simp [sanitizeSnapshot, pleB]

/-- Witness for C6 at concrete inputs: loglstar = -2e6 is floored to -inf,
logz = 5 passes through, logzvar = 4 is in range so the standard error is its
square root, and delta_logz = 2e6 exceeds the bound and becomes +inf. -/
theorem C6_sanitize_exact_witness :
    (sanitizeSnapshot (.finite (-2000000)) (.finite 5) (.finite 4)
        (.finite 2000000)).logzerr = psqrt (.finite 4) ∧
    (sanitizeSnapshot (.finite (-2000000)) (.finite 5) (.finite 4)
        (.finite 2000000)).delta_logz = .pinf ∧
    (sanitizeSnapshot (.finite (-2000000)) (.finite 5) (.finite 4)
        (.finite 2000000)).logz = .finite 5 ∧
    (sanitizeSnapshot (.finite (-2000000)) (.finite 5) (.finite 4)
        (.finite 2000000)).loglstar = .ninf := by
  obtain ⟨h1, -, -, h4, -, -, -, -, h9, -, -, h12, -⟩ :=
    C6_sanitize_exact (.finite (-2000000)) (.finite 5) (.finite 4) (.finite 2000000)
  exact ⟨h1 4 rfl (by norm_num) (by norm_num),
         h4 2000000 rfl (by norm_num),
         h9 5 rfl (by norm_num),
         h12 (-2000000) rfl (by norm_num)⟩

/-- Inversion of a successful construction: the object records the keys in
input order, carries the dictionary built by the construction loop, is marked
initialized, all required keys were present, and the dynamic flag reflects
the live-point resolution with nlive taking precedence. -/
theorem mkResults_ok_inv {kv : List (String × PyVal)} {r : Results}
    (h : mkResults kv = Except.ok r) :
    r.keys = kv.map Prod.fst ∧ r.attrs = buildDict kv ∧ r.initialized = true ∧
    (∀ k ∈ requiredKeys, k ∈ kv.map Prod.fst) ∧
    (("nlive" ∈ kv.map Prod.fst ∧ r.dynamic = false) ∨
     ("nlive" ∉ kv.map Prod.fst ∧ "samples_n" ∈ kv.map Prod.fst ∧
      r.dynamic = true)) := by
  unfold mkResults at h
  rcases hf : requiredKeys.find? (fun k => decide (k ∉ kv.map Prod.fst))
    with _ | k
  · rw [hf] at h
    have hreq : ∀ k ∈ requiredKeys, k ∈ kv.map Prod.fst := by
      intro k hk
      have := List.find?_eq_none.mp hf k hk
      simpa using this
    by_cases h1 : "nlive" ∈ kv.map Prod.fst
    · rw [if_pos h1] at h
      injection h with h
      subst h
      exact ⟨rfl, rfl, rfl, hreq, Or.inl ⟨h1, rfl⟩⟩
    · rw [if_neg h1] at h
      by_cases h2 : "samples_n" ∈ kv.map Prod.fst
      · rw [if_pos h2] at h
        injection h with h
        subst h
        exact ⟨rfl, rfl, rfl, hreq, Or.inr ⟨h1, h2, rfl⟩⟩
      · rw [if_neg h2] at h
        exact Except.noConfusion h
  · rw [hf] at h
    exact Except.noConfusion h

/-- Construction succeeds as soon as the required keys are all present and at
least one live-point key is present. -/
theorem mkResults_ok_of {kv : List (String × PyVal)}
    (hreq : ∀ k ∈ requiredKeys, k ∈ kv.map Prod.fst)
    (hlive : "nlive" ∈ kv.map Prod.fst ∨ "samples_n" ∈ kv.map Prod.fst) :
    ∃ r, mkResults kv = Except.ok r := by
  unfold mkResults
  have hf : requiredKeys.find? (fun k => decide (k ∉ kv.map Prod.fst)) = none := by
    rw [List.find?_eq_none]
    intro k hk
    simpa using hreq k hk
  rw [hf]
  by_cases h1 : "nlive" ∈ kv.map Prod.fst
  · rw [if_pos h1]
    exact ⟨_, rfl⟩
  · rw [if_neg h1]
    rcases hlive with h | h2
    · exact absurd h h1
    · rw [if_pos h2]
      exact ⟨_, rfl⟩

/-- Claim C1: for every ordered mapping of field names to values that omits
some required key, construction fails synchronously with a ValueError naming
the first absent key of the required list, and no finalized trace object is
produced. -/
theorem C1_missing_required_field (kv : List (String × PyVal))
    (hok : kv.all (fun p => okKey p.1) = true) (m : String)
    (hfirst : requiredKeys.find? (fun k => decide (k ∉ kv.map Prod.fst))
      = some m) :
    mkResults kv = Except.error (ResErr.missingField m) ∧
    ∀ r, mkResults kv ≠ Except.ok r := by
  have hm : mkResults kv = Except.error (ResErr.missingField m) := by
    unfold mkResults
    rw [hfirst]
  refine ⟨hm, fun r hr => ?_⟩
  rw [hm] at hr
  exact Except.noConfusion hr

/-- Witness for C1: a mapping providing only samples_u and logl is rejected
naming samples_id, the first required key it omits. -/
theorem C1_missing_required_field_witness :
    mkResults [("samples_u", PyVal.int 0), ("logl", PyVal.int 0)]
      = Except.error (ResErr.missingField "samples_id") ∧
    ∀ r, mkResults [("samples_u", PyVal.int 0), ("logl", PyVal.int 0)]
      ≠ Except.ok r :=
  C1_missing_required_field _ (by decide) "samples_id" (by decide)

/-- Claim C2: for a mapping containing all seven required fields,
construction succeeds iff nlive or samples_n is present; with neither it
fails with the missing-live-info ValueError; with both it succeeds and
isdynamic returns false, silently preferring the static interpretation. -/
theorem C2_live_point_resolution (kv : List (String × PyVal))
    (hok : kv.all (fun p => okKey p.1) = true)
    (hreq : ∀ k ∈ requiredKeys, k ∈ kv.map Prod.fst) :
    ((∃ r, mkResults kv = Except.ok r) ↔
      ("nlive" ∈ kv.map Prod.fst ∨ "samples_n" ∈ kv.map Prod.fst)) ∧
    ("nlive" ∉ kv.map Prod.fst → "samples_n" ∉ kv.map Prod.fst →
      mkResults kv = Except.error ResErr.missingLiveInfo) ∧
    ("nlive" ∈ kv.map Prod.fst → "samples_n" ∈ kv.map Prod.fst →
      ∃ r, mkResults kv = Except.ok r ∧ r.isdynamic = false) := by
  have hf : requiredKeys.find? (fun k => decide (k ∉ kv.map Prod.fst)) = none := by
    rw [List.find?_eq_none]
    intro k hk
    simpa using hreq k hk
  refine ⟨⟨?_, mkResults_ok_of hreq⟩, ?_, ?_⟩
  · rintro ⟨r, hr⟩
    rcases mkResults_ok_inv hr with ⟨-, -, -, -, hl | hl⟩
    · exact Or.inl hl.1
    · exact Or.inr hl.2.1
  · intro h1 h2
    unfold mkResults
    rw [hf, if_neg h1, if_neg h2]
  · intro h1 _
    refine ⟨⟨kv.map Prod.fst, buildDict kv, false, true⟩, ?_, rfl⟩
    unfold mkResults
    rw [hf, if_pos h1]

/-- Witness for C2 at the concrete mapping kvBoth, which carries both nlive
and samples_n. -/
theorem C2_live_point_resolution_witness :
    ((∃ r, mkResults kvBoth = Except.ok r) ↔
      ("nlive" ∈ kvBoth.map Prod.fst ∨ "samples_n" ∈ kvBoth.map Prod.fst)) ∧
    ("nlive" ∉ kvBoth.map Prod.fst → "samples_n" ∉ kvBoth.map Prod.fst →
      mkResults kvBoth = Except.error ResErr.missingLiveInfo) ∧
    ("nlive" ∈ kvBoth.map Prod.fst → "samples_n" ∈ kvBoth.map Prod.fst →
      ∃ r, mkResults kvBoth = Except.ok r ∧ r.isdynamic = false) :=
  C2_live_point_resolution kvBoth (by decide) (by decide)

/-- Claim C3: on every successfully constructed trace, assigning any
attribute whose name does not begin with an underscore fails with the
RuntimeError of the setattr interceptor.  The call returns only the error:
no updated object exists, so every field of the trace is left unchanged (in
this pure embedding the input object is immutable by construction). -/
theorem C3_immutable_after_construction (kv : List (String × PyVal))
    (r : Results) (h : mkResults kv = Except.ok r) (name : String)
    (v : PyVal) (c : Char) (rest : List Char) (hname : name.data = c :: rest)
    (hc : c ≠ '_') :
    r.setattr name v = Except.error ResErr.cannotSetAttr := by
  obtain ⟨-, -, hinit, -, -⟩ := mkResults_ok_inv h
  have hcb : (c != '_') = true := by simpa using hc
  simp [Results.setattr, hname, hcb, hinit]

/-- Witness for C3: assigning logl on the constructed trace rStat0 fails. -/
theorem C3_immutable_after_construction_witness :
    Results.setattr rStat0 "logl" (PyVal.int 1)
      = Except.error ResErr.cannotSetAttr :=
  C3_immutable_after_construction kvStat0 rStat0 rfl "logl" (PyVal.int 1)
    'l' ['o', 'g', 'l'] rfl (by decide)

/-!
Dictionary lemmas: sequentially binding the pairs of a list leaves, at every
key, the value of the last pair carrying that key.
-/

/-- Lookup after a single binding. -/
theorem dictGet_dictSet (d : List (String × PyVal)) (k : String) (v : PyVal)
    (k2 : String) :
    dictGet (dictSet d k v) k2 = if k = k2 then some v else dictGet d k2 := by
  induction d with
  | nil =>
    by_cases h : k = k2 <;> simp [dictSet, dictGet, h]
  | cons p rest ih =>
    obtain ⟨k0, v0⟩ := p
    by_cases h0 : k0 = k
    · subst h0
      by_cases h : k0 = k2 <;> simp [dictSet, dictGet, h]
    · by_cases h : k0 = k2
      · subst h
        have : ¬ k = k0 := fun hk => h0 hk.symm
        simp [dictSet, dictGet, h0, this]
      · simp [dictSet, dictGet, h0, h, ih]

/-- Lookup through the construction fold: the last binding of the key in the
pair list wins, and an absent key falls back to the starting dictionary. -/
theorem foldl_dictSet_get (kv : List (String × PyVal))
    (d : List (String × PyVal)) (k : String) :
    dictGet (kv.foldl (fun d p => dictSet d p.1 p.2) d) k =
      match lastGet kv k with
      | some v => some v
      | none => dictGet d k := by
  induction kv generalizing d with
  | nil => rfl
  | cons p rest ih =>
    rw [List.foldl_cons, ih]
    rcases hl : lastGet rest k with _ | v
    · simp only [lastGet, hl, dictGet_dictSet]
      by_cases hp : p.1 = k
      · simp [hp]
      · simp [hp]
    · simp [lastGet, hl]

/-- Lookup in the dictionary built by the construction loop. -/
theorem buildDict_get (kv : List (String × PyVal)) (k : String) :
    dictGet (buildDict kv) k = lastGet kv k := by
  rw [buildDict, foldl_dictSet_get]
  rcases lastGet kv k with _ | v <;> simp [dictGet]

/-- lastGet finds a value exactly when the key occurs in the pair list. -/
theorem lastGet_isSome_iff (kv : List (String × PyVal)) (k : String) :
    (lastGet kv k).isSome = true ↔ k ∈ kv.map Prod.fst := by
  induction kv with
  | nil => simp [lastGet]
  | cons p rest ih =>
    simp only [lastGet, List.map_cons, List.mem_cons]
    rcases hl : lastGet rest k with _ | v
    · rw [hl] at ih
      simp only [Option.isSome_none, Bool.false_eq_true, false_iff] at ih
      by_cases hp : p.1 = k
      · subst hp
        simp
      · have hkp : ¬ k = p.1 := fun hk => hp hk.symm
        simp [hp, hkp, ih]
    · rw [hl] at ih
      simp only [Option.isSome_some, true_iff] at ih
      simp [ih]

/-- An absent key has no last binding. -/
theorem lastGet_eq_none (kv : List (String × PyVal)) (k : String)
    (h : k ∉ kv.map Prod.fst) : lastGet kv k = none := by
  rcases hl : lastGet kv k with _ | v
  · rfl
  · exact absurd ((lastGet_isSome_iff kv k).mp (by rw [hl]; rfl)) h

/-- When every pair carrying the key binds the same value and the key
occurs, that value is the last binding. -/
theorem lastGet_eq_of_all (l : List (String × PyVal)) (k : String) (v : PyVal)
    (hmem : k ∈ l.map Prod.fst)
    (hall : ∀ p ∈ l, p.1 = k → p.2 = v) :
    lastGet l k = some v := by
  induction l with
  | nil => simp at hmem
  | cons p rest ih =>
    simp only [List.map_cons, List.mem_cons] at hmem
    simp only [lastGet]
    rcases hl : lastGet rest k with _ | w
    · have hk : p.1 = k := by
        rcases hmem with h | h
        · exact h.symm
        · exact absurd ((lastGet_isSome_iff rest k).mpr h)
            (by rw [hl]; simp)
      rw [if_pos hk, hall p (by simp) hk]
    · have hm : k ∈ rest.map Prod.fst :=
        (lastGet_isSome_iff rest k).mp (by rw [hl]; rfl)
      have := ih hm (fun q hq hqk => hall q (List.mem_cons_of_mem _ hq) hqk)
      rw [hl] at this
      exact this

/-- A successful dictionary lookup means the key occurs in the pair list. -/
theorem dictGet_isSome_mem (l : List (String × PyVal)) (k : String)
    (v : PyVal) (h : dictGet l k = some v) : k ∈ l.map Prod.fst := by
  induction l with
  | nil => exact Option.noConfusion h
  | cons p rest ih =>
    simp only [dictGet] at h
    by_cases hp : p.1 = k
    · simp [hp]
    · rw [if_neg hp] at h
      simp [ih h]

/-- The items of a trace list its recorded keys in order. -/
theorem items_map_fst (r : Results) : r.items.map Prod.fst = r.keys := by
  simp only [Results.items, List.map_map]
  have hx : (Prod.fst ∘ fun k => (k, (dictGet r.attrs k).getD (PyVal.int 0)))
      = fun k : String => k := rfl
  rw [hx, List.map_id']

/-- Claim C4: reconstructing a trace from the (key, value) pairs its items
iterator yields succeeds and gives a trace with the same keys in the same
insertion order, the same dynamic flag, and every field bound to the same
value. -/
theorem C4_items_roundtrip (kv : List (String × PyVal)) (r : Results)
    (hok : kv.all (fun p => okKey p.1) = true)
    (h : mkResults kv = Except.ok r) :
    ∃ r2, mkResults r.items = Except.ok r2 ∧
      r2.keys = r.keys ∧ r2.dynamic = r.dynamic ∧
      r2.initialized = r.initialized ∧
      ∀ k, dictGet r2.attrs k = dictGet r.attrs k := by
  obtain ⟨hkeys, hattrs, hinit, hreq, hdyn⟩ := mkResults_ok_inv h
  have hik : r.items.map Prod.fst = r.keys := items_map_fst r
  have hreq2 : ∀ k ∈ requiredKeys, k ∈ r.items.map Prod.fst := by
    rw [hik, hkeys]
    exact hreq
  have hlive2 : "nlive" ∈ r.items.map Prod.fst ∨
      "samples_n" ∈ r.items.map Prod.fst := by
    rw [hik, hkeys]
    rcases hdyn with h1 | h1
    · exact Or.inl h1.1
    · exact Or.inr h1.2.1
  obtain ⟨r2, hr2⟩ := mkResults_ok_of hreq2 hlive2
  obtain ⟨hkeys2, hattrs2, hinit2, -, hdyn2⟩ := mkResults_ok_inv hr2
  refine ⟨r2, hr2, by rw [hkeys2, hik], ?_, by rw [hinit2, hinit], ?_⟩
  · rcases hdyn with h1 | h1 <;> rcases hdyn2 with h2 | h2
    · rw [h2.2, h1.2]
    · exfalso
      apply h2.1
      rw [hik, hkeys]
      exact h1.1
    · exfalso
      apply h1.1
      have := h2.1
      rw [hik, hkeys] at this
      exact this
    · rw [h2.2.2, h1.2.2]
  · intro k
    rw [hattrs2, buildDict_get, hattrs, buildDict_get]
    by_cases hk : k ∈ kv.map Prod.fst
    · rcases ho : lastGet kv k with _ | v
      · exact absurd ((lastGet_isSome_iff kv k).mpr hk) (by rw [ho]; simp)
      · apply lastGet_eq_of_all
        · rw [hik, hkeys]
          exact hk
        · intro p hp hpk
          simp only [Results.items, List.mem_map] at hp
          obtain ⟨k2, hk2, rfl⟩ := hp
          simp only at hpk
          subst hpk
          simp only [hattrs, buildDict_get, ho, Option.getD_some]
    · rw [lastGet_eq_none kv k hk, lastGet_eq_none r.items k
        (by rw [hik, hkeys]; exact hk)]

/-- Witness for C4 at the concrete static trace rStat0 built from kvStat0. -/
theorem C4_items_roundtrip_witness :
    ∃ r2, mkResults rStat0.items = Except.ok r2 ∧
      r2.keys = rStat0.keys ∧ r2.dynamic = rStat0.dynamic ∧
      r2.initialized = rStat0.initialized ∧
      ∀ k, dictGet r2.attrs k = dictGet rStat0.attrs k :=
  C4_items_roundtrip kvStat0 rStat0 (by decide) rfl

/-- The substitution step never changes the key of a pair. -/
theorem subFn_fst (m : List (String × PyVal)) (p : String × PyVal) :
    (subFn m p).1 = p.1 := by
  unfold subFn
  rcases dictGet m p.1 with _ | w <;> rfl

/-- Claim C5: substituting by a dictionary whose keys all name fields of the
trace yields a new trace whose keys keep the original insertion order, in
which every key bound by the dictionary carries the replacement value, and
every other field carries the original value.  The original trace, being a
pure value, is untouched: results_substitute returns a separate object. -/
theorem C5_substitute_fields (kv m : List (String × PyVal)) (r : Results)
    (hok : kv.all (fun p => okKey p.1) = true)
    (h : mkResults kv = Except.ok r)
    (hm : ∀ k ∈ m.map Prod.fst, k ∈ r.keys) :
    ∃ r2, results_substitute r m = Except.ok r2 ∧
      r2.keys = r.keys ∧
      (∀ k w, dictGet m k = some w → dictGet r2.attrs k = some w) ∧
      (∀ k, dictGet m k = none →
        dictGet r2.attrs k = dictGet r.attrs k) := by
  obtain ⟨hkeys, hattrs, hinit, hreq, hdyn⟩ := mkResults_ok_inv h
  have hsub : (r.items.map (subFn m)).map Prod.fst = r.keys := by
    rw [List.map_map]
    have hc : Prod.fst ∘ subFn m = (Prod.fst :
        String × PyVal → String) := funext fun p => subFn_fst m p
    rw [hc, items_map_fst]
  have hreq2 : ∀ k ∈ requiredKeys, k ∈ (r.items.map (subFn m)).map Prod.fst := by
    rw [hsub, hkeys]
    exact hreq
  have hlive2 : "nlive" ∈ (r.items.map (subFn m)).map Prod.fst ∨
      "samples_n" ∈ (r.items.map (subFn m)).map Prod.fst := by
    rw [hsub, hkeys]
    rcases hdyn with h1 | h1
    · exact Or.inl h1.1
    · exact Or.inr h1.2.1
  obtain ⟨r2, hr2⟩ := mkResults_ok_of hreq2 hlive2
  obtain ⟨hkeys2, hattrs2, -, -, -⟩ := mkResults_ok_inv hr2
  refine ⟨r2, hr2, by rw [hkeys2, hsub], ?_, ?_⟩
  · intro k w hw
    rw [hattrs2, buildDict_get]
    apply lastGet_eq_of_all
    · rw [hsub]
      exact hm k (dictGet_isSome_mem m k w hw)
    · intro p hp hpk
      simp only [List.mem_map] at hp
      obtain ⟨p0, hp0, rfl⟩ := hp
      rw [subFn_fst] at hpk
      unfold subFn
      rw [hpk, hw]
  · intro k hknone
    rw [hattrs2, buildDict_get, hattrs, buildDict_get]
    by_cases hk : k ∈ kv.map Prod.fst
    · rcases ho : lastGet kv k with _ | v
      · exact absurd ((lastGet_isSome_iff kv k).mpr hk) (by rw [ho]; simp)
      · apply lastGet_eq_of_all
        · rw [hsub, hkeys]
          exact hk
        · intro p hp hpk
          simp only [List.mem_map] at hp
          obtain ⟨p0, hp0, rfl⟩ := hp
          rw [subFn_fst] at hpk
          simp only [Results.items, List.mem_map] at hp0
          obtain ⟨k2, hk2, rfl⟩ := hp0
          dsimp only at hpk
          subst hpk
          unfold subFn
          dsimp only
          rw [hknone]
          simp only [hattrs, buildDict_get, ho, Option.getD_some]
    · rw [lastGet_eq_none kv k hk, lastGet_eq_none _ k
        (by rw [hsub, hkeys]; exact hk)]

/-- Witness for C5: substituting the nlive field of the concrete static
trace rStat0. -/
theorem C5_substitute_fields_witness :
    ∃ r2, results_substitute rStat0 [("nlive", PyVal.int 7)]
        = Except.ok r2 ∧
      r2.keys = rStat0.keys ∧
      (∀ k w, dictGet [("nlive", PyVal.int 7)] k = some w →
        dictGet r2.attrs k = some w) ∧
      (∀ k, dictGet [("nlive", PyVal.int 7)] k = none →
        dictGet r2.attrs k = dictGet rStat0.attrs k) :=
  C5_substitute_fields kvStat0 [("nlive", PyVal.int 7)] rStat0
    (by decide) rfl (by decide)

/-- Counterexample to claim C8 as stated: construction of kvDecLogl, whose
logl sequence decreases from 1 to 0, succeeds, and the constructed trace has
a logl sequence that is not non-decreasing.  So not every successfully
constructed trace satisfies the monotonicity invariant: Results.init never
checks it. -/
theorem C8_counterexample_decreasing_logl :
    (mkResults kvDecLogl).toOption.map loglNonDec = some false := by
  rfl

/-- Claim C8 amended: construction stores logl exactly as supplied (the last
binding of the key in the input mapping), performing no monotonicity check;
hence the logl sequence of the constructed trace is non-decreasing iff the
supplied sequence is, which holds for traces produced by nested sampling but
is not enforced here. -/
theorem C8_logl_passthrough (kv : List (String × PyVal)) (r : Results)
    (hok : kv.all (fun p => okKey p.1) = true)
    (h : mkResults kv = Except.ok r) :
    dictGet r.attrs "logl" = lastGet kv "logl" ∧
    loglNonDec r = (match lastGet kv "logl" with
      | some (.arr l) => nonDecFloats l
      | _ => false) := by
  obtain ⟨-, hattrs, -, -, -⟩ := mkResults_ok_inv h
  constructor
  · rw [hattrs, buildDict_get]
  · unfold loglNonDec
    rw [hattrs, buildDict_get]

/-- Witness for C8 at the trace built from kvDecLogl itself. -/
theorem C8_logl_passthrough_witness :
    dictGet (Results.mk
        ["samples_u", "samples_id", "logl", "logwt", "logz", "logzerr",
         "samples", "nlive"] (buildDict kvDecLogl) false true).attrs "logl"
      = lastGet kvDecLogl "logl" ∧
    loglNonDec (Results.mk
        ["samples_u", "samples_id", "logl", "logwt", "logz", "logzerr",
         "samples", "nlive"] (buildDict kvDecLogl) false true)
      = (match lastGet kvDecLogl "logl" with
        | some (.arr l) => nonDecFloats l
        | _ => false) :=
  C8_logl_passthrough kvDecLogl _ (by decide) rfl

set_option maxRecDepth 8000

/-- Claim C7: the static trace with nlive 100 and 500 iterations of strictly
increasing logl renders a summary containing the literal substrings
nlive: 100 and niter: 500; the dynamic trace renders a summary omitting the
nlive line whose reported total call count is the sum 3 + 5 + 7 of the
per-iteration call counts. -/
theorem C7_summary_contents :
    strictIncrFloats staticLogl = true ∧
    staticLogl.length = 500 ∧
    (summaryOf kvSummaryStatic).any
      (fun s => strContains s "nlive: 100" && strContains s "niter: 500")
      = true ∧
    (summaryOf kvSummaryDyn).any
      (fun s => !(strContains s "nlive:") &&
        strContains s ("ncall: " ++ toString ((3 : ℤ) + 5 + 7))) = true := by
  refine ⟨by decide, by decide, by decide, by decide⟩

/-- Claim C10: with both dlogz and stop_val absent, get_print_fn_args (and
hence print_fn, which calls it first) fails while building the output
strings, because the stop branch formats the absent stop_val with a
fixed-point float conversion; with dlogz a number, or with stop_val a
number, string construction succeeds. -/
theorem C10_stop_val_formatting (res : IterSnapshot) (niter ncall : ℤ)
    (ali nb : Option ℤ) (lmin lmax : PFloat) :
    get_print_fn_args res niter ncall ali none none nb lmin lmax = none ∧
    (∀ d : PFloat, ∀ sv : Option PFloat,
      (get_print_fn_args res niter ncall ali (some d) sv nb lmin
        lmax).isSome = true) ∧
    (∀ sv : PFloat, ∀ dl : Option PFloat,
      (get_print_fn_args res niter ncall ali dl (some sv) nb lmin
        lmax).isSome = true) := by
  refine ⟨rfl, fun d sv => rfl, fun sv dl => ?_⟩
  rcases dl with _ | d <;> rfl

/-- Witness for C10 at a concrete snapshot: both optional criteria absent
fails, either one present succeeds. -/
theorem C10_stop_val_formatting_witness :
    get_print_fn_args ⟨.finite 0, .finite 0, .finite 0, .finite 0, 0, 0,
      .finite 0⟩ 1 2 none none none none .ninf .pinf = none ∧
    (get_print_fn_args ⟨.finite 0, .finite 0, .finite 0, .finite 0, 0, 0,
      .finite 0⟩ 1 2 none (some (.finite 1)) none none .ninf
      .pinf).isSome = true ∧
    (get_print_fn_args ⟨.finite 0, .finite 0, .finite 0, .finite 0, 0, 0,
      .finite 0⟩ 1 2 none none (some (.finite 1)) none .ninf
      .pinf).isSome = true := by
  obtain ⟨h1, h2, h3⟩ := C10_stop_val_formatting
    ⟨.finite 0, .finite 0, .finite 0, .finite 0, 0, 0, .finite 0⟩
    1 2 none none .ninf .pinf
  exact ⟨h1, h2 (.finite 1) none, h3 (.finite 1) none⟩
